import Mathlib

/-!
Verification development for the zorse corpus-curation pipeline.

The pipeline normalizes raw source-code records from two ingestion
sources (BigQuery GitHub dump, The Stack v2 via Software Heritage),
filters them by line/token thresholds, classifies licenses, aggregates
the admitted records into a line-delimited JSON file and publishes the
result to a dataset hub.

External collaborators (the tokenizer, base64+latin-1 decoding, the S3
blob fetch, the dataset hub) are modelled as explicit function
parameters; everything else is translated directly from the Python
source.
-/

set_option maxRecDepth 100000

namespace Zorse

/-! ### Content filter — `processing/filters.py` -/

def MIN_LINES : Nat := 10
def MAX_LINES : Nat := 10000
def MAX_TOKENS : Nat := 128000

/-- Line-boundary characters recognised by Python `str.splitlines`. -/
def isLineBoundary (c : Char) : Bool :=
  c = '\n' || c = '\r' || c = '\x0b' || c = '\x0c' ||
  c = '\x1c' || c = '\x1d' || c = '\x1e' || c = '\u0085' ||
  c = Char.ofNat 0x2028 || c = Char.ofNat 0x2029

/-- Worker for `pySplitlines`: `acc` holds the current line reversed.
A `"\r\n"` pair counts as a single boundary; a trailing boundary does
not contribute an extra empty line. -/
def splitlinesGo : List Char → List Char → List (List Char)
  | [], acc => if acc.isEmpty then [] else [acc.reverse]
  | '\r' :: '\n' :: rest, acc => acc.reverse :: splitlinesGo rest []
  | c :: rest, acc =>
    if isLineBoundary c then acc.reverse :: splitlinesGo rest []
    else splitlinesGo rest (c :: acc)

/-- Python `str.splitlines`: split on line boundaries, no trailing
empty line for a trailing boundary, `"".splitlines() = []`. -/
def pySplitlines (s : String) : List String :=
  (splitlinesGo s.data []).map List.asString

/-- Embedding of `passes_filters(content)`.  The external tokenizer
(`len(tokenizer.tokenize(content))`) is the parameter `tok`.  Python's
`if not content` is the emptiness test on a string argument. -/
def passes_filters (tok : String → Nat) (content : String) : Option Nat :=
  if content = "" then none
  else
    let num_lines := (pySplitlines content).length
    if MIN_LINES ≤ num_lines ∧ num_lines ≤ MAX_LINES then
      let num_tokens := tok content
      if num_tokens > MAX_TOKENS then none
      else some num_tokens
    else none

/-! ### License classifier — `processing/licenses.py` -/

def PERMISSIVE_LICENSE_SPDX_IDS : List String := [
  "0BSD", "AAL", "AdaCore-doc", "Adobe-2006", "Adobe-Glyph", "ADSL",
  "AFL-1.1", "AFL-1.2", "AFL-2.0", "AFL-2.1", "AFL-3.0", "AML", "AMPAS",
  "ANTLR-PD", "Apache-1.0", "Apache-1.1", "Apache-2.0", "APAFML",
  "Artistic-1.0", "Artistic-1.0-cl8", "Artistic-1.0-Perl", "Artistic-2.0",
  "Barr", "Beerware", "Bitstream-Charter", "Bitstream-Vera", "blessing",
  "BlueOak-1.0.0", "Boehm-GC", "Borceux", "BSD-1-Clause", "BSD-2-Clause",
  "BSD-2-Clause-Patent", "BSD-2-Clause-Views", "BSD-3-Clause",
  "BSD-3-Clause-Attribution", "BSD-3-Clause-Clear", "BSD-3-Clause-LBNL",
  "BSD-3-Clause-Modification", "BSD-3-Clause-No-Nuclear-License-2014",
  "BSD-3-Clause-No-Nuclear-Warranty", "BSD-3-Clause-Open-MPI", "BSD-4-Clause",
  "BSD-4-Clause-Shortened", "BSD-4-Clause-UC", "BSD-4.3RENO", "BSD-4.3TAHOE",
  "BSD-Advertising-Acknowledgement", "BSD-Attribution-HPND-disclaimer",
  "BSD-Source-Code", "BSL-1.0", "bzip2-1.0.6", "Caldera", "CC-BY-1.0",
  "CC-BY-2.0", "CC-BY-2.5", "CC-BY-2.5-AU", "CC-BY-3.0", "CC-BY-3.0-AT",
  "CC-BY-3.0-DE", "CC-BY-3.0-NL", "CC-BY-3.0-US", "CC-BY-4.0", "CC-PDDC",
  "CC0-1.0", "CDLA-Permissive-1.0", "CDLA-Permissive-2.0", "CECILL-B",
  "CERN-OHL-1.1", "CERN-OHL-1.2", "CERN-OHL-P-2.0", "CFITSIO", "ClArtistic",
  "Clips", "CMU-Mach", "CNRI-Python", "COIL-1.0", "Community-Spec-1.0",
  "Condor-1.1", "Crossword", "Cube", "curl", "diffmark", "DOC", "DSDP",
  "dtoa", "ECL-1.0", "ECL-2.0", "EFL-1.0", "EFL-2.0", "eGenix", "Entessa",
  "EPICS", "etalab-2.0", "EUDatagrid", "Fair", "FreeBSD-DOC", "FSFAP",
  "FSFUL", "FSFULLR", "FSFULLRWD", "FTL", "GD", "Giftware", "Glulxe",
  "GLWTPL", "Graphics-Gems", "HaskellReport", "HP-1986", "HPND",
  "HPND-Markus-Kuhn", "HPND-sell-variant", "HPND-sell-variant-MIT-disclaimer",
  "HTMLTIDY", "ICU", "IJG", "IJG-short", "ImageMagick", "iMatix", "Info-ZIP",
  "Intel", "Intel-ACPI", "ISC", "Jam", "JasPer-2.0", "JPNIC", "JSON",
  "Kazlib", "Latex2e", "Latex2e-translated-notice", "Leptonica", "Libpng",
  "libpng-2.0", "libselinux-1.0", "libtiff", "Linux-OpenIB", "LLVM-exception",
  "LOOP", "LPL-1.02", "LPPL-1.3c", "LZMA-SDK-9.22", "Martin-Birgmeier",
  "metamail", "Minpack", "MirOS", "MIT", "MIT-0", "MIT-advertising",
  "MIT-CMU", "MIT-enna", "MIT-feh", "MIT-Festival", "MIT-Modern-Variant",
  "MIT-open-group", "MIT-Wu", "MITNFA", "mpich2", "mplus", "MS-LPL", "MS-PL",
  "MTLL", "MulanPSL-1.0", "MulanPSL-2.0", "Multics", "Mup", "NAIST-2003",
  "NASA-1.3", "NCSA", "Net-SNMP", "NetCDF", "Newsletr", "NICTA-1.0",
  "NIST-PD", "NIST-PD-fallback", "NIST-Software", "NLOD-1.0", "NLOD-2.0",
  "NLPL", "NRL", "NTP", "NTP-0", "O-UDA-1.0", "ODC-By-1.0", "OFFIS",
  "OFL-1.0", "OFL-1.0-RFN", "OGC-1.0", "OGL-Canada-2.0", "OGL-UK-1.0",
  "OGL-UK-2.0", "OGL-UK-3.0", "OGTSL", "OLDAP-2.0.1", "OLDAP-2.4",
  "OLDAP-2.5", "OLDAP-2.7", "OLDAP-2.8", "OML", "OpenSSL", "OPUBL-1.0",
  "PDDL-1.0", "PHP-3.0", "PHP-3.01", "Plexus", "PostgreSQL", "PSF-2.0",
  "psutils", "Python-2.0", "Qhull", "RSA-MD", "Ruby", "SAX-PD", "Saxpath",
  "SCEA", "SchemeReport", "Sendmail", "SGI-B-1.1", "SGI-B-2.0", "SHL-0.5",
  "SHL-0.51", "SHL-2.0", "SHL-2.1", "SMLNJ", "snprintf", "Spencer-86",
  "Spencer-94", "Spencer-99", "SSH-OpenSSH", "SSH-short", "SunPro",
  "Swift-exception", "SWL", "TCL", "TCP-wrappers", "TermReadKey",
  "TU-Berlin-1.0", "TU-Berlin-2.0", "UCAR", "Unicode-DFS-2015",
  "Unicode-DFS-2016", "UnixCrypt", "Unlicense", "UPL-1.0", "Vim", "VSL-1.0",
  "W3C", "W3C-19980720", "W3C-20150513", "w3m", "Widget-Workshop", "Wsuipa",
  "WTFPL", "X11", "X11-distribute-modifications-variant", "Xerox", "Xfig",
  "XFree86-1.1", "xlock", "Xnet", "xpp", "XSkat", "Zed", "Zend-2.0", "Zlib",
  "zlib-acknowledgement", "ZPL-1.1", "ZPL-2.0", "ZPL-2.1"]

def PERMISSIVE_LICENSE_NAMES : List String := [
  "mit", "apache-2.0", "apache 2.0", "apache2", "bsd", "isc", "unlicense",
  "wtfpl", "zlib", "public domain", "public-domain", "cc0", "cc0-1.0",
  "bsd-2-clause", "bsd-3-clause", "bsd-4-clause", "artistic-2.0",
  "python-2.0", "postgresql", "json", "curl", "openssl"]


/-- Boolean prefix test on character lists. -/
def isPrefixOfCL : List Char → List Char → Bool
  | [], _ => true
  | _ :: _, [] => false
  | a :: as, b :: bs => a == b && isPrefixOfCL as bs

/-- Boolean contiguous-sublist test on character lists. -/
def isInfixOfCL (needle : List Char) : List Char → Bool
  | [] => needle.isEmpty
  | b :: rest => isPrefixOfCL needle (b :: rest) || isInfixOfCL needle rest

/-- Python whitespace characters as stripped by `str.strip()`. -/
def isPyWhitespace (c : Char) : Bool :=
  c = ' ' || c = '\t' || c = '\n' || c = '\r' || c = '\x0b' || c = '\x0c' ||
  c = '\x1c' || c = '\x1d' || c = '\x1e' || c = '\x1f' || c = '\u0085' ||
  c = '\u00a0' || c = Char.ofNat 0x1680 ||
  (0x2000 ≤ c.toNat && c.toNat ≤ 0x200a) ||
  c = Char.ofNat 0x2028 || c = Char.ofNat 0x2029 || c = Char.ofNat 0x202f ||
  c = Char.ofNat 0x205f || c = Char.ofNat 0x3000

/-- Python `str.strip()`: drop leading and trailing whitespace. -/
def pyStrip (s : String) : String :=
  List.asString (((s.data.dropWhile isPyWhitespace).reverse.dropWhile
    isPyWhitespace).reverse)

/-- Python substring test `sub in s`. -/
def pyContains (s sub : String) : Bool :=
  isInfixOfCL sub.data s.data

/-- Python `s.startswith(pre)`. -/
def pyStartswith (s pre : String) : Bool :=
  isPrefixOfCL pre.data s.data

/-- Python `str.lower()`, restricted to its ASCII action (every string
handled by the classifier's rule sets is ASCII). -/
def pyToLower (s : String) : String :=
  List.asString (s.data.map Char.toLower)

/-- Python `str.upper()`, restricted to its ASCII action. -/
def pyToUpper (s : String) : String :=
  List.asString (s.data.map Char.toUpper)

/-- Gate patterns of the substring heuristic in `classify_license_type`. -/
def HEURISTIC_PATTERNS : List String :=
  ["mit", "apache", "bsd", "isc", "unlicense", "wtfpl"]

/-- Rule cascade of `classify_license_type` on the stripped identifier
`license_clean`: exact SPDX match, lower-cased common-name match,
case-insensitive SPDX match, then the gated substring heuristic. -/
def classifyCascade (license_clean : String) : String :=
  if PERMISSIVE_LICENSE_SPDX_IDS.contains license_clean then "permissive"
  else
    let license_lower := pyToLower license_clean
    if PERMISSIVE_LICENSE_NAMES.contains license_lower then "permissive"
    else if PERMISSIVE_LICENSE_SPDX_IDS.any
        (fun perm_license => pyToLower perm_license == license_lower) then
      "permissive"
    else if HEURISTIC_PATTERNS.any
        (fun pat => pyContains license_lower pat) then
      if pyContains license_lower "mit" || pyContains license_lower "apache"
        then "permissive"
      else if pyStartswith license_lower "bsd" then "permissive"
      else "no_license"
    else "no_license"

/-- Embedding of `classify_license_type(license_name)`.  Python's
`if not license_name` is true for `None` and for the empty string; the
surviving input is stripped and handed to the rule cascade. -/
def classify_license_type (license_name : Option String) : String :=
  match license_name with
  | none => "no_license"
  | some s =>
    if s = "" then "no_license"
    else classifyCascade (pyStrip s)


/-! ### Unified record — the one persisted entity (spec section 3) -/

/-- Unified Record schema shared by both normalizer variants. -/
structure UnifiedRecord where
  content : String
  repo_name : String
  file_path : String
  language : String
  extension : String
  license_type : String
  licenses : List String
  host_url : String
  source : String
  num_tokens : Nat
  revision_id : String
  commit_date : String
  branch : String
deriving DecidableEq, Repr

/-! ### Variant A normalizer — `ingestion/bigquery.py` -/

/-- Valid extensions per language, in dict insertion order
(`ingestion/bigquery.py`). -/
def VALID_EXTENSIONS_BQ : List (String × List String) := [
  ("JCL", ["jcl", "job", "proc", "prc", "cntl"]),
  ("PL/I", ["pli", "pl1", "plinc"]),
  ("HLASM", ["hla", "hlasm", "assemble"]),
  ("BMS", ["bms", "bmc"])]

/-- Union of all registered BigQuery extensions
(`all_valid_extensions` in `load_bigquery`). -/
def bqAllValidExtensions : List String :=
  (VALID_EXTENSIONS_BQ.map Prod.snd).flatten

/-- Characters after the last dot of the list, if any dot occurs. -/
def afterLastDot : List Char → Option (List Char)
  | [] => none
  | c :: rest =>
    match afterLastDot rest with
    | some r => some r
    | none => if c = '.' then some rest else none

/-- Embedding of `_extract_extension(file_path)`: the lower-cased part
after the last dot, or the empty string if the path is empty or has no
dot (Python `str.rsplit(".", 1)`). -/
def _extract_extension (file_path : String) : String :=
  if file_path = "" then ""
  else
    match afterLastDot file_path.data with
    | some r => pyToLower (List.asString r)
    | none => ""

/-- Python `s.lstrip(".")`: drop all leading dots. -/
def pyLstripDots (s : String) : String :=
  List.asString (s.data.dropWhile (fun c => c = '.'))

/-- Embedding of `_infer_language_from_extension(extension)`: first the
table scan in dict order, then the hard-coded fallback cases, else
`"UNKNOWN"`. -/
def _infer_language_from_extension (extension : String) : String :=
  let ext := pyLstripDots (pyToLower extension)
  match VALID_EXTENSIONS_BQ.find? (fun le => le.2.contains ext) with
  | some le => le.1
  | none =>
    if ext = "jcl" then "JCL"
    else if ext = "pli" || ext = "pl1" then "PL/I"
    else if ext = "asm" then "HLASM"
    else if ext = "bms" then "BMS"
    else "UNKNOWN"

/-- Raw BigQuery result row (`repo_name`, `path`, base64 `content`,
nullable `license`). -/
structure BQRow where
  repo_name : String
  path : String
  content : String
  license : Option String
deriving DecidableEq, Repr

/-- Per-row body of the `load_bigquery` loop.  The parameter `decode`
is the external `base64.b64decode` + `bytes.decode("latin-1",
errors="ignore")` step, `none` meaning the exception branch; `tok` is
the external tokenizer used by `passes_filters`.  Returns `none` when
the row is skipped. -/
def processBQRow (decode : String → Option String) (tok : String → Nat)
    (row : BQRow) : Option UnifiedRecord :=
  let extension := _extract_extension row.path
  let language := _infer_language_from_extension extension
  if bqAllValidExtensions.contains extension then
    match decode row.content with
    | none => none
    | some content =>
      match passes_filters tok content with
      | none => none
      | some num_tokens =>
        let license_name : Option String :=
          match row.license with
          | some l => if l = "" then none else some l
          | none => none
        let license_type := classify_license_type license_name
        let licenses_array : List String :=
          match license_name with
          | some l => [l]
          | none => []
        some { content := content, repo_name := row.repo_name,
               file_path := row.path, language := language,
               extension := extension, license_type := license_type,
               licenses := licenses_array,
               host_url := "https://github.com", source := "bigquery",
               num_tokens := num_tokens, revision_id := "",
               commit_date := "", branch := "" }
  else none

/-- Embedding of `load_bigquery()` restricted to its normalization loop:
the query result is the list `rows`; yielded records in order. -/
def load_bigquery (decode : String → Option String) (tok : String → Nat)
    (rows : List BQRow) : List UnifiedRecord :=
  rows.filterMap (processBQRow decode tok)

/-! ### Variant B normalizer — `ingestion/stack.py` -/

/-- Valid extensions per language, in dict insertion order
(`ingestion/stack.py`). -/
def VALID_EXTENSIONS_STACK : List (String × List String) := [
  ("COBOL", ["cbl", "cob", "cobol", "cpy", "ccp", "wks", "pco"]),
  ("REXX", ["rexx", "rex", "rx", "rxj", "pprx", "orx", "rexg", "exec"]),
  ("RPGLE", ["rpgle", "sqlrpgle", "rpg", "dds"])]

/-- Raw Stack v2 source row, before the `dataset.map` step.  The field
`committer_date` holds the `isoformat()` rendering of the timestamp. -/
structure StackRow where
  blob_id : String
  src_encoding : String
  detected_licenses : List String
  license_type : String
  repo_name : String
  path : String
  language : String
  extension : String
  branch_name : String
  revision_id : String
  committer_date : String
deriving DecidableEq, Repr

/-- Normalization `row["extension"].lower().lstrip(".") if
row["extension"] else ""` applied by the Variant B extension filter
(note: applied to the membership test only, not to the stored field). -/
def normStackExt (e : String) : String :=
  if e = "" then "" else pyLstripDots (pyToLower e)

/-- Per-row body of `load_stack`: the `dataset.map` content resolution
(the external blob fetch `download_blob(blob_id, src_encoding)` is the
parameter `fetch`, `none` meaning fetch failure) followed by the loop.
Candidates with `none` content are dropped first; then the extension
filter (only when the language has a registered set); then
`passes_filters`.  Returns `none` when the row is skipped. -/
def processStackRow (fetch : String → String → Option String)
    (tok : String → Nat) (language : String) (row : StackRow) :
    Option UnifiedRecord :=
  let valid_extensions :=
    (VALID_EXTENSIONS_STACK.lookup (pyToUpper language)).getD []
  match fetch row.blob_id row.src_encoding with
  | none => none
  | some content =>
    let extOk :=
      if valid_extensions.isEmpty then true
      else valid_extensions.contains (normStackExt row.extension)
    if extOk then
      match passes_filters tok content with
      | none => none
      | some num_tokens =>
        some { content := content, repo_name := row.repo_name,
               file_path := row.path, language := row.language,
               extension := row.extension,
               license_type := row.license_type,
               licenses := row.detected_licenses,
               host_url := "https://github.com", source := "stack",
               num_tokens := num_tokens, revision_id := row.revision_id,
               commit_date := row.committer_date,
               branch := row.branch_name }
    else none

/-- Embedding of `load_stack(language)` restricted to its normalization
loop: the Hub partition for the language is the list `rows`; yielded
records in order. -/
def load_stack (fetch : String → String → Option String)
    (tok : String → Nat) (language : String) (rows : List StackRow) :
    List UnifiedRecord :=
  rows.filterMap (processStackRow fetch tok language)

/-! ### Aggregator — `scripts/build_dataset.py` -/

/-- Lowercase hexadecimal digit, as emitted by `json.dumps`. -/
def hexDigit (n : Nat) : Char :=
  if n < 10 then Char.ofNat (48 + n) else Char.ofNat (87 + n)

/-- Four-digit hexadecimal rendering used in `\uXXXX` escapes. -/
def hex4 (n : Nat) : List Char :=
  [hexDigit (n / 4096 % 16), hexDigit (n / 256 % 16),
   hexDigit (n / 16 % 16), hexDigit (n % 16)]

/-- Escaping of one character inside a JSON string literal, following
`json.dumps` with its default `ensure_ascii=True`: short escapes for
the usual control characters, `\uXXXX` (with surrogate pairs beyond
the BMP) for other control and all non-ASCII characters. -/
def jsonEscapeChar (c : Char) : List Char :=
  if c = '"' then ['\\', '"']
  else if c = '\\' then ['\\', '\\']
  else if c = '\x08' then ['\\', 'b']
  else if c = '\x0c' then ['\\', 'f']
  else if c = '\n' then ['\\', 'n']
  else if c = '\r' then ['\\', 'r']
  else if c = '\t' then ['\\', 't']
  else if c.toNat < 0x20 || c.toNat > 0x7e then
    if c.toNat ≤ 0xffff then '\\' :: 'u' :: hex4 c.toNat
    else
      let v := c.toNat - 0x10000
      ('\\' :: 'u' :: hex4 (0xd800 + v / 1024)) ++
        ('\\' :: 'u' :: hex4 (0xdc00 + v % 1024))
  else [c]

/-- JSON string literal for `s`. -/
def jsonStr (s : String) : List Char :=
  '"' :: (s.data.flatMap jsonEscapeChar ++ ['"'])

/-- Decimal digits of a natural number (fuel-based so that it reduces
inside the kernel). -/
def natToCharsAux : Nat → Nat → List Char → List Char
  | 0, _, acc => acc
  | fuel + 1, n, acc =>
    let d := Char.ofNat (48 + n % 10)
    if n < 10 then d :: acc else natToCharsAux fuel (n / 10) (d :: acc)

/-- Decimal rendering of a natural number, as emitted by `json.dumps`
for a Python int. -/
def natToChars (n : Nat) : List Char :=
  natToCharsAux (n + 1) n []

/-- JSON values occurring in a serialized Unified Record. -/
inductive Jval where
  | jstr : String → Jval
  | jnat : Nat → Jval
  | jlist : List String → Jval
deriving DecidableEq, Repr

/-- Comma-space separated concatenation (`json.dumps` item separator). -/
def sepJoin : List (List Char) → List Char
  | [] => []
  | [x] => x
  | x :: y :: rest => x ++ ',' :: ' ' :: sepJoin (y :: rest)

/-- Rendering of one JSON value. -/
def renderJval : Jval → List Char
  | .jstr s => jsonStr s
  | .jnat n => natToChars n
  | .jlist xs => '[' :: (sepJoin (xs.map jsonStr) ++ [']'])

/-- Rendering of a JSON object with the given key/value pairs, in
order, with the `json.dumps` default separators. -/
def renderObj (fields : List (String × Jval)) : String :=
  List.asString ('{' ::
    (sepJoin (fields.map
      (fun kv => jsonStr kv.1 ++ ':' :: ' ' :: renderJval kv.2)) ++ ['}']))

/-- Field list of a serialized Unified Record, in the dict insertion
order used by both normalizers. -/
def recordFields (r : UnifiedRecord) : List (String × Jval) := [
  ("content", .jstr r.content), ("repo_name", .jstr r.repo_name),
  ("file_path", .jstr r.file_path), ("language", .jstr r.language),
  ("extension", .jstr r.extension), ("license_type", .jstr r.license_type),
  ("licenses", .jlist r.licenses), ("host_url", .jstr r.host_url),
  ("source", .jstr r.source), ("num_tokens", .jnat r.num_tokens),
  ("revision_id", .jstr r.revision_id), ("commit_date", .jstr r.commit_date),
  ("branch", .jstr r.branch)]

/-- Embedding of `json.dumps(row)` for a Unified Record. -/
def recordToJson (r : UnifiedRecord) : String :=
  renderObj (recordFields r)

/-- Embedding of `build_dataset(output_path, languages,
include_bigquery)`.  The returned list is the sequence of lines written
to the output file; the file itself is opened with mode `"w"`
unconditionally, so it is created (with these lines, possibly zero of
them) on every run.  `stackData language` is the Hub partition consumed
by `load_stack(language)` and `bqData` the BigQuery query result. -/
def build_dataset (fetch : String → String → Option String)
    (tok : String → Nat) (decode : String → Option String)
    (stackData : String → List StackRow) (bqData : List BQRow)
    (languages : Option (List String)) (include_bigquery : Bool) :
    List String :=
  let langs := languages.getD ["COBOL", "REXX", "RPGLE"]
  let all_rows := langs.foldl
    (fun acc language => acc ++ load_stack fetch tok language
      (stackData language)) []
  let all_rows :=
    if include_bigquery then all_rows ++ load_bigquery decode tok bqData
    else all_rows
  all_rows.map recordToJson

/-! ### Publisher — `upload.py` -/

/-- Python `s.endswith(suffix)`. -/
def pyEndswith (s suffix : String) : Bool :=
  isPrefixOfCL suffix.data.reverse s.data.reverse

/-- Outcome of the `load_dataset(repo_id, split="train")` call on the
destination.  `hfHubHTTPError` is an exception of the one class the
code catches (carrying its HTTP status code, which the code never
inspects); `otherFailure` is any exception of another class. -/
inductive LoadOutcome where
  | success : List String → LoadOutcome
  | hfHubHTTPError : Nat → LoadOutcome
  | otherFailure : String → LoadOutcome
deriving DecidableEq, Repr

/-- Typed errors raised by `upload_to_hf`: the three precondition
errors, plus propagation of an uncaught collaborator exception. -/
inductive UploadError where
  | fileNotFoundError : String → UploadError
  | extensionValueError : UploadError
  | tokenValueError : UploadError
  | uncaught : String → UploadError
deriving DecidableEq, Repr

/-- Network/I-O side effects of `upload_to_hf`, in issue order. -/
inductive Effect where
  | createRepo : String → Effect
  | loadDataset : String → Effect
  | loadFiles : List String → Effect
  | pushToHub : String → Effect
deriving DecidableEq, Repr

/-- Environment of one `upload_to_hf` call: the file system (a path
maps to the rows of the file when it exists), the `HF_TOKEN`
environment variable, and the outcome of the destination load. -/
structure UploadEnv where
  fileRows : String → Option (List String)
  hfToken : Option String
  loadExisting : LoadOutcome

/-- Python `os.path.exists(p)` in the modelled file system. -/
def pathExists (env : UploadEnv) (p : String) : Bool :=
  (env.fileRows p).isSome

/-- Precondition loop of `upload_to_hf`: for each path in order, check
existence, then the `.jsonl` extension; first failure wins. -/
def checkFilePaths (env : UploadEnv) : List String → Option UploadError
  | [] => none
  | p :: ps =>
    if pathExists env p then
      if pyEndswith p ".jsonl" then checkFilePaths env ps
      else some .extensionValueError
    else some (.fileNotFoundError p)

/-- Python `if not token` (negated): `os.getenv("HF_TOKEN")` yields a
usable token only when the variable is set and non-empty. -/
def hasToken (env : UploadEnv) : Bool :=
  match env.hfToken with
  | none => false
  | some t => t ≠ ""

/-- Embedding of `upload_to_hf(file_paths, dataset_name)`.  Returns the
side effects performed, in order, and either the propagated error or
the final contents pushed to the destination (which `push_to_hub`
replaces wholesale). -/
def upload_to_hf (env : UploadEnv) (file_paths : List String)
    (dataset_name : String) :
    List Effect × Except UploadError (List String) :=
  match checkFilePaths env file_paths with
  | some e => ([], .error e)
  | none =>
    if hasToken env then
      let repo_id := "zorse/" ++ dataset_name
      match env.loadExisting with
      | .otherFailure msg =>
        ([.createRepo repo_id, .loadDataset repo_id],
         .error (.uncaught msg))
      | .success prior =>
        let dataset := file_paths.flatMap
          (fun p => (env.fileRows p).getD [])
        ([.createRepo repo_id, .loadDataset repo_id,
          .loadFiles file_paths, .pushToHub repo_id],
         .ok (prior ++ dataset))
      | .hfHubHTTPError _ =>
        let dataset := file_paths.flatMap
          (fun p => (env.fileRows p).getD [])
        ([.createRepo repo_id, .loadDataset repo_id,
          .loadFiles file_paths, .pushToHub repo_id],
         .ok dataset)
    else ([], .error .tokenValueError)

/-! ### Helper lemmas -/

theorem isPrefixOfCL_isInfixOfCL (n h : List Char)
    (hp : isPrefixOfCL n h = true) : isInfixOfCL n h = true := by
  cases h with
  | nil =>
    cases n with
    | nil => rfl
    | cons a as => simp [isPrefixOfCL] at hp
  | cons b bs => simp [isInfixOfCL, hp]

theorem pyStartswith_pyContains (s pre : String)
    (h : pyStartswith s pre = true) : pyContains s pre = true :=
  isPrefixOfCL_isInfixOfCL pre.data s.data h

theorem dropWhile_dropWhile (p : Char → Bool) (l : List Char) :
    (l.dropWhile p).dropWhile p = l.dropWhile p := by
  induction l with
  | nil => rfl
  | cons a as ih =>
    by_cases h : p a
    · simp [List.dropWhile_cons, h, ih]
    · simp [List.dropWhile_cons, h]

theorem dropWhile_head_not (p : Char → Bool) (l : List Char) (a : Char)
    (as : List Char) (h : l.dropWhile p = a :: as) : p a = false := by
  induction l with
  | nil => simp [List.dropWhile] at h
  | cons b bs ih =>
    by_cases hb : p b
    · exact ih (by simpa [List.dropWhile_cons, hb] using h)
    · rw [List.dropWhile_cons, if_neg (by simp [hb])] at h
      cases h
      simpa using hb

/-- Both-ends strip, on character lists. -/
def pyStripList (l : List Char) : List Char :=
  ((l.dropWhile isPyWhitespace).reverse.dropWhile isPyWhitespace).reverse

theorem pyStrip_eq_pyStripList (s : String) :
    pyStrip s = List.asString (pyStripList s.data) := rfl

theorem data_asString (l : List Char) : (List.asString l).data = l := rfl

theorem pyStripList_dropWhile (l : List Char) :
    (pyStripList l).dropWhile isPyWhitespace = pyStripList l := by
  rcases ht : pyStripList l with _ | ⟨a, t⟩
  · rfl
  · have hsuff : (pyStripList l).reverse <:+
        (l.dropWhile isPyWhitespace).reverse := by
      simpa [pyStripList] using
        List.dropWhile_suffix (p := isPyWhitespace)
          (l := (l.dropWhile isPyWhitespace).reverse)
    have hpre : pyStripList l <+: l.dropWhile isPyWhitespace := by
      have h2 := List.reverse_prefix.mpr hsuff
      simpa using h2
    obtain ⟨r, hr⟩ := hpre
    have hhead : l.dropWhile isPyWhitespace = a :: (t ++ r) := by
      rw [ht] at hr
      simpa using hr.symm
    have hfa : isPyWhitespace a = false :=
      dropWhile_head_not isPyWhitespace l a (t ++ r) hhead
    rw [List.dropWhile_cons, if_neg (by simp [hfa])]

theorem pyStripList_idem (l : List Char) :
    pyStripList (pyStripList l) = pyStripList l := by
  have h1 : pyStripList (pyStripList l) =
      ((pyStripList l).reverse.dropWhile isPyWhitespace).reverse := by
    show (((pyStripList l).dropWhile isPyWhitespace).reverse.dropWhile
      isPyWhitespace).reverse = _
    rw [pyStripList_dropWhile l]
  rw [h1]
  have h2 : (pyStripList l).reverse =
      (l.dropWhile isPyWhitespace).reverse.dropWhile isPyWhitespace := by
    simp [pyStripList]
  rw [h2, dropWhile_dropWhile]
  simp [pyStripList]

theorem pyStrip_idem (s : String) : pyStrip (pyStrip s) = pyStrip s := by
  show List.asString (pyStripList (List.asString (pyStripList s.data)).data) =
    List.asString (pyStripList s.data)
  rw [data_asString, pyStripList_idem]

/-! ### Claim C1 — content filter characterization -/

/-- Ten-line sample content used by concrete witnesses. -/
def tenLineContent : String := "a\na\na\na\na\na\na\na\na\na"

/-- C1: for every content string, `passes_filters` rejects (returns
`none`) exactly when the content is empty, its `splitlines` count lies
outside the closed interval `[MIN_LINES, MAX_LINES]`, or the external
tokenizer count exceeds `MAX_TOKENS`; when it admits, the returned
value equals the tokenizer's count for that exact text. -/
theorem passes_filters_characterization (tok : String → Nat)
    (content : String) :
    (passes_filters tok content = none ↔
      (content = "" ∨ (pySplitlines content).length < MIN_LINES ∨
       MAX_LINES < (pySplitlines content).length ∨
       MAX_TOKENS < tok content)) ∧
    (∀ n : Nat, passes_filters tok content = some n → n = tok content) := by
  constructor
  · simp only [passes_filters]
    split_ifs with h1 h2 h3
    · exact iff_of_true rfl (Or.inl h1)
    · exact iff_of_true rfl (Or.inr (Or.inr (Or.inr h3)))
    · refine iff_of_false (by simp) ?_
      push_neg at h3
      rintro (h | h | h | h)
      · exact h1 h
      · omega
      · omega
      · omega
    · refine iff_of_true rfl (Or.inr ?_)
      have hd : (pySplitlines content).length < MIN_LINES ∨
          MAX_LINES < (pySplitlines content).length := by
        by_contra hc
        push_neg at hc
        exact h2 ⟨hc.1, hc.2⟩
      rcases hd with h | h
      · exact Or.inl h
      · exact Or.inr (Or.inl h)
  · intro n hn
    simp only [passes_filters] at hn
    split_ifs at hn
    simp_all

/-- Concrete instantiation of `passes_filters_characterization`: a
ten-line content with a constant-7 tokenizer is admitted with count 7. -/
theorem passes_filters_characterization_witness :
    passes_filters (fun _ => 7) tenLineContent = some 7 ∧ (7 : Nat) = 7 :=
  ⟨by decide,
   (passes_filters_characterization (fun _ => 7) tenLineContent).2 7
     (by decide)⟩

/-! ### Claims C2 and C10 — license classifier -/

theorem classifyCascade_total (c : String) :
    classifyCascade c = "permissive" ∨ classifyCascade c = "no_license" := by
  simp only [classifyCascade]
  split_ifs <;> simp

theorem classifyCascade_permissive_iff (c : String) :
    classifyCascade c = "permissive" ↔
      (PERMISSIVE_LICENSE_SPDX_IDS.contains c = true ∨
       PERMISSIVE_LICENSE_NAMES.contains (pyToLower c) = true ∨
       PERMISSIVE_LICENSE_SPDX_IDS.any
         (fun p => pyToLower p == pyToLower c) = true ∨
       pyContains (pyToLower c) "mit" = true ∨
       pyContains (pyToLower c) "apache" = true ∨
       pyStartswith (pyToLower c) "bsd" = true) := by
  simp only [classifyCascade]
  split_ifs with h1 h2 h3 h4 h5 h6
  · exact iff_of_true rfl (Or.inl h1)
  · exact iff_of_true rfl (Or.inr (Or.inl h2))
  · exact iff_of_true rfl (Or.inr (Or.inr (Or.inl h3)))
  · have h5d : pyContains (pyToLower c) "mit" = true ∨
        pyContains (pyToLower c) "apache" = true := by simpa using h5
    rcases h5d with h | h
    · exact iff_of_true rfl (Or.inr (Or.inr (Or.inr (Or.inl h))))
    · exact iff_of_true rfl (Or.inr (Or.inr (Or.inr (Or.inr (Or.inl h)))))
  · exact iff_of_true rfl (Or.inr (Or.inr (Or.inr (Or.inr (Or.inr h6)))))
  · refine iff_of_false (by decide) ?_
    rintro (h | h | h | h | h | h)
    · exact h1 h
    · exact h2 h
    · exact h3 h
    · exact h5 (by simp [h])
    · exact h5 (by simp [h])
    · exact h6 h
  · refine iff_of_false (by decide) ?_
    have hall : ∀ pat ∈ HEURISTIC_PATTERNS,
        pyContains (pyToLower c) pat = false := by
      intro pat hpat
      by_contra hne
      exact h4 (List.any_eq_true.mpr ⟨pat, hpat, by simpa using hne⟩)
    rintro (h | h | h | h | h | h)
    · exact h1 h
    · exact h2 h
    · exact h3 h
    · exact absurd h (by simpa using hall "mit" (by decide))
    · exact absurd h (by simpa using hall "apache" (by decide))
    · have hb := pyStartswith_pyContains (pyToLower c) "bsd" h
      exact absurd hb (by simpa using hall "bsd" (by decide))

/-- C2: `classify_license_type` is total into
`{"permissive", "no_license"}`; absent or empty input yields
`"no_license"`; a non-empty input is classified `"permissive"` exactly
when the stripped identifier matches the exact SPDX set, the
lower-cased common-name set, the SPDX set case-insensitively, or the
substring heuristic (contains `"mit"` or `"apache"`, or starts with
`"bsd"`); every other input — including identifiers that merely
contain `"isc"`, `"unlicense"` or `"wtfpl"` — yields `"no_license"`. -/
theorem classify_license_type_spec :
    (∀ o : Option String, classify_license_type o = "permissive" ∨
       classify_license_type o = "no_license") ∧
    classify_license_type none = "no_license" ∧
    classify_license_type (some "") = "no_license" ∧
    (∀ s : String, classify_license_type (some s) = "permissive" ↔
      (PERMISSIVE_LICENSE_SPDX_IDS.contains (pyStrip s) = true ∨
       PERMISSIVE_LICENSE_NAMES.contains (pyToLower (pyStrip s)) = true ∨
       PERMISSIVE_LICENSE_SPDX_IDS.any
         (fun p => pyToLower p == pyToLower (pyStrip s)) = true ∨
       pyContains (pyToLower (pyStrip s)) "mit" = true ∨
       pyContains (pyToLower (pyStrip s)) "apache" = true ∨
       pyStartswith (pyToLower (pyStrip s)) "bsd" = true)) ∧
    classify_license_type (some "MIT") = "permissive" ∧
    classify_license_type (some "Apache-2.0") = "permissive" ∧
    classify_license_type (some "Proprietary") = "no_license" ∧
    classify_license_type (some "misc-0.9") = "no_license" ∧
    classify_license_type (some "Unlicensed-X") = "no_license" ∧
    classify_license_type (some "wtfpl-variant") = "no_license" := by
  refine ⟨?_, rfl, by decide, ?_, by decide, by decide, by decide, by decide,
    by decide, by decide⟩
  · intro o
    cases o with
    | none => exact Or.inr rfl
    | some s =>
      by_cases hs : s = ""
      · subst hs
        exact Or.inr (by decide)
      · have he : classify_license_type (some s) =
            classifyCascade (pyStrip s) := by
          simp only [classify_license_type]
          rw [if_neg hs]
        rw [he]
        exact classifyCascade_total (pyStrip s)
  · intro s
    by_cases hs : s = ""
    · subst hs
      decide
    · have he : classify_license_type (some s) =
          classifyCascade (pyStrip s) := by
        simp only [classify_license_type]
        rw [if_neg hs]
      rw [he]
      exact classifyCascade_permissive_iff (pyStrip s)

/-- Concrete instantiation of `classify_license_type_spec`: the
common-name rule admits `"zlib"`. -/
theorem classify_license_type_spec_witness :
    classify_license_type (some "zlib") = "permissive" :=
  (classify_license_type_spec.2.2.2.1 "zlib").mpr (by decide)

/-- C10: `classify_license_type` strips surrounding whitespace before
any matching — classifying any string equals classifying its stripped
form — and in particular `"  MIT  "` is classified permissive. -/
theorem classify_license_type_strip :
    (∀ s : String, classify_license_type (some s) =
       classify_license_type (some (pyStrip s))) ∧
    classify_license_type (some "  MIT  ") = "permissive" := by
  constructor
  · intro s
    by_cases hs : s = ""
    · subst hs
      have h0 : pyStrip "" = "" := by decide
      rw [h0]
    · by_cases hps : pyStrip s = ""
      · calc classify_license_type (some s)
            = classifyCascade (pyStrip s) := by
              simp only [classify_license_type]
              rw [if_neg hs]
          _ = classifyCascade "" := by rw [hps]
          _ = "no_license" := by decide
          _ = classify_license_type (some (pyStrip s)) := by
              rw [hps]
              decide
      · calc classify_license_type (some s)
            = classifyCascade (pyStrip s) := by
              simp only [classify_license_type]
              rw [if_neg hs]
          _ = classifyCascade (pyStrip (pyStrip s)) := by rw [pyStrip_idem]
          _ = classify_license_type (some (pyStrip s)) := by
              simp only [classify_license_type]
              rw [if_neg hps]
  · decide

/-! ### Claim C5 — Variant A language inference -/

/-- C5 counterexample: `"asm"` is not registered in any language's
valid-extension table, yet `_infer_language_from_extension` returns
`"HLASM"`, not `"UNKNOWN"`, via the hard-coded fallback. -/
theorem infer_language_unregistered_counterexample :
    bqAllValidExtensions.contains "asm" = false ∧
    _infer_language_from_extension "asm" = "HLASM" := by decide

/-- C5 amended: for every extension string whose normalized form
(lower-cased, leading dots stripped) is neither registered in any
language's valid-extension table nor equal to `"asm"`, the Variant A
language inference returns `"UNKNOWN"`; the unregistered normalized
form `"asm"` instead yields `"HLASM"` (see the counterexample). -/
theorem infer_language_unregistered (ext : String)
    (hmem : pyLstripDots (pyToLower ext) ∉ bqAllValidExtensions)
    (hasm : pyLstripDots (pyToLower ext) ≠ "asm") :
    _infer_language_from_extension ext = "UNKNOWN" := by
  simp only [_infer_language_from_extension]
  have hfind : VALID_EXTENSIONS_BQ.find?
      (fun le => le.2.contains (pyLstripDots (pyToLower ext))) = none := by
    rw [List.find?_eq_none]
    intro le hle hc
    exact hmem (List.mem_flatten.mpr
      ⟨le.2, List.mem_map.mpr ⟨le, hle, rfl⟩, by simpa using hc⟩)
  rw [hfind]
  have h1 : pyLstripDots (pyToLower ext) ≠ "jcl" := by
    intro h
    rw [h] at hmem
    exact hmem (by decide)
  have h2 : pyLstripDots (pyToLower ext) ≠ "pli" := by
    intro h
    rw [h] at hmem
    exact hmem (by decide)
  have h3 : pyLstripDots (pyToLower ext) ≠ "pl1" := by
    intro h
    rw [h] at hmem
    exact hmem (by decide)
  have h4 : pyLstripDots (pyToLower ext) ≠ "bms" := by
    intro h
    rw [h] at hmem
    exact hmem (by decide)
  rw [if_neg h1, if_neg (by simp [h2, h3]), if_neg hasm, if_neg h4]

/-- Concrete instantiation of `infer_language_unregistered` at the
unregistered extension `"xyz"`. -/
theorem infer_language_unregistered_witness :
    _infer_language_from_extension "xyz" = "UNKNOWN" :=
  infer_language_unregistered "xyz" (by decide) (by decide)

/-! ### Claims C6 and C9 — normalizer invariants -/

/-- Inversion of `processBQRow`: a produced record's extension is the
one extracted from the path and passed the union-allowlist guard, and
its content/token fields come from the decode and filter steps. -/
theorem processBQRow_inv (decode : String → Option String)
    (tok : String → Nat) (row : BQRow) (r : UnifiedRecord)
    (h : processBQRow decode tok row = some r) :
    r.extension = _extract_extension row.path ∧
    r.extension ∈ bqAllValidExtensions ∧
    ∃ content, decode row.content = some content ∧
      passes_filters tok content = some r.num_tokens ∧
      r.content = content := by
  simp only [processBQRow] at h
  split_ifs at h with hg
  split at h
  · exact absurd h (by simp)
  · rename_i content hdec
    split at h
    · exact absurd h (by simp)
    · rename_i num_tokens hpf
      obtain rfl := Option.some.inj h
      exact ⟨rfl, by simpa using hg, content, hdec, hpf, rfl⟩

/-- Inversion of `processStackRow`: a produced record passes the
extension-membership test in normalized form whenever the language has
a nonempty registered set, while the stored `extension`,
`license_type` and `licenses` fields are verbatim copies of the source
row; content and token count come from the fetch and the filter. -/
theorem processStackRow_inv (fetch : String → String → Option String)
    (tok : String → Nat) (language : String) (row : StackRow)
    (r : UnifiedRecord)
    (h : processStackRow fetch tok language row = some r) :
    r.extension = row.extension ∧
    r.license_type = row.license_type ∧
    r.licenses = row.detected_licenses ∧
    (∃ content, fetch row.blob_id row.src_encoding = some content ∧
      passes_filters tok content = some r.num_tokens ∧
      r.content = content) ∧
    (∀ ve, VALID_EXTENSIONS_STACK.lookup (pyToUpper language) = some ve →
      ve ≠ [] → normStackExt row.extension ∈ ve) := by
  simp only [processStackRow] at h
  split at h
  · exact absurd h (by simp)
  · rename_i content hfetch
    split_ifs at h with hemp htriv hcont
    · split at h
      · exact absurd h (by simp)
      · rename_i num_tokens hpf
        obtain rfl := Option.some.inj h
        refine ⟨rfl, rfl, rfl, ⟨content, hfetch, hpf, rfl⟩, ?_⟩
        intro ve hve hne
        rw [hve] at hemp
        simp only [Option.getD_some] at hemp
        exact absurd (by simpa using hemp) hne
    · split at h
      · exact absurd h (by simp)
      · rename_i num_tokens hpf
        obtain rfl := Option.some.inj h
        refine ⟨rfl, rfl, rfl, ⟨content, hfetch, hpf, rfl⟩, ?_⟩
        intro ve hve hne
        rw [hve] at hcont
        simp only [Option.getD_some] at hcont
        simpa using hcont

/-- Stack fixture row whose upstream extension carries a leading dot
and upper case. -/
def cobolRowDotCBL : StackRow :=
  { blob_id := "b1", src_encoding := "utf-8", detected_licenses := ["MIT"],
    license_type := "permissive", repo_name := "r", path := "p/F.CBL",
    language := "COBOL", extension := ".CBL", branch_name := "main",
    revision_id := "rev", committer_date := "2024-01-01T00:00:00" }

/-- Record produced from `cobolRowDotCBL` by Variant B under a
constant-5 tokenizer and a fetch returning `tenLineContent`. -/
def cobolRecordDotCBL : UnifiedRecord :=
  { content := tenLineContent, repo_name := "r", file_path := "p/F.CBL",
    language := "COBOL", extension := ".CBL", license_type := "permissive",
    licenses := ["MIT"], host_url := "https://github.com", source := "stack",
    num_tokens := 5, revision_id := "rev",
    commit_date := "2024-01-01T00:00:00", branch := "main" }

/-- BigQuery fixture row with path `a/b/file.jcl` and license MIT. -/
def bqRowJCL : BQRow :=
  { repo_name := "r", path := "a/b/file.jcl", content := "QUJD",
    license := some "MIT" }

/-- Record produced from `bqRowJCL` by Variant A under a constant-5
tokenizer and a decode returning `tenLineContent`. -/
def bqRecordJCL : UnifiedRecord :=
  { content := tenLineContent, repo_name := "r", file_path := "a/b/file.jcl",
    language := "JCL", extension := "jcl", license_type := "permissive",
    licenses := ["MIT"], host_url := "https://github.com",
    source := "bigquery", num_tokens := 5, revision_id := "",
    commit_date := "", branch := "" }

/-- C6 counterexample: Variant B constructs a record whose stored
`extension` is `".CBL"` — upper-cased, with a leading dot, and not a
member of the COBOL registered set — because the allowlist test uses
the normalized form while the stored field keeps the raw upstream
value. -/
theorem unified_record_extension_counterexample :
    (load_stack (fun _ _ => some tenLineContent) (fun _ => 5) "COBOL"
      [cobolRowDotCBL]).map UnifiedRecord.extension = [".CBL"] ∧
    ((VALID_EXTENSIONS_STACK.lookup (pyToUpper "COBOL")).getD
      []).contains ".CBL" = false ∧
    pyStartswith ".CBL" "." = true ∧ pyToLower ".CBL" ≠ ".CBL" := by decide

/-- C6 corrected: every Variant A record's `extension` is lower-cased,
dot-free and a member of the registered union set; a Variant B record
instead stores the upstream row's extension string verbatim, and only
its normalized form (lower-cased, leading dots stripped) is guaranteed
to belong to the producing language's registered set when that
language has a nonempty one. -/
theorem unified_record_extension_invariant :
    (∀ decode tok rows r, r ∈ load_bigquery decode tok rows →
       r.extension ∈ bqAllValidExtensions ∧
       pyToLower r.extension = r.extension ∧ '.' ∉ r.extension.data) ∧
    (∀ fetch tok language rows r, r ∈ load_stack fetch tok language rows →
       (∃ row ∈ rows, r.extension = row.extension) ∧
       (∀ ve, VALID_EXTENSIONS_STACK.lookup (pyToUpper language) = some ve →
          ve ≠ [] → normStackExt r.extension ∈ ve)) := by
  constructor
  · intro decode tok rows r hr
    simp only [load_bigquery] at hr
    obtain ⟨row, hrow, hp⟩ := List.mem_filterMap.mp hr
    obtain ⟨hext, hmem, -⟩ := processBQRow_inv decode tok row r hp
    have hprops : ∀ e ∈ bqAllValidExtensions,
        pyToLower e = e ∧ '.' ∉ e.data := by decide
    exact ⟨hmem, (hprops _ hmem).1, (hprops _ hmem).2⟩
  · intro fetch tok language rows r hr
    simp only [load_stack] at hr
    obtain ⟨row, hrow, hp⟩ := List.mem_filterMap.mp hr
    obtain ⟨hext, -, -, -, hve⟩ :=
      processStackRow_inv fetch tok language row r hp
    refine ⟨⟨row, hrow, hext⟩, ?_⟩
    rw [hext]
    exact hve

/-- Concrete instantiation of `unified_record_extension_invariant` at
one admitted record per variant. -/
theorem unified_record_extension_invariant_witness :
    (bqRecordJCL.extension ∈ bqAllValidExtensions ∧
     pyToLower bqRecordJCL.extension = bqRecordJCL.extension ∧
     '.' ∉ bqRecordJCL.extension.data) ∧
    ((∃ row ∈ [cobolRowDotCBL],
        cobolRecordDotCBL.extension = row.extension) ∧
     (∀ ve, VALID_EXTENSIONS_STACK.lookup (pyToUpper "COBOL") = some ve →
        ve ≠ [] → normStackExt cobolRecordDotCBL.extension ∈ ve)) :=
  ⟨unified_record_extension_invariant.1 (fun _ => some tenLineContent)
     (fun _ => 5) [bqRowJCL] bqRecordJCL (by decide),
   unified_record_extension_invariant.2 (fun _ _ => some tenLineContent)
     (fun _ => 5) "COBOL" [cobolRowDotCBL] cobolRecordDotCBL (by decide)⟩

/-- C9: in Variant B a failed blob fetch (absent content) drops the
candidate — for every tokenizer collaborator, so before any filtering
— and every produced record's `license_type` and raw license list are
the upstream row's values verbatim; the embedding of `load_stack`
contains no call to `classify_license_type`. -/
theorem load_stack_fetch_failure_passthrough :
    (∀ fetch tok language row,
       fetch row.blob_id row.src_encoding = (none : Option String) →
       processStackRow fetch tok language row = none) ∧
    (∀ fetch tok language rows r, r ∈ load_stack fetch tok language rows →
       ∃ row ∈ rows, r.license_type = row.license_type ∧
         r.licenses = row.detected_licenses) := by
  constructor
  · intro fetch tok language row hf
    simp only [processStackRow, hf]
  · intro fetch tok language rows r hr
    simp only [load_stack] at hr
    obtain ⟨row, hrow, hp⟩ := List.mem_filterMap.mp hr
    obtain ⟨-, hlt, hlic, -, -⟩ :=
      processStackRow_inv fetch tok language row r hp
    exact ⟨row, hrow, hlt, hlic⟩

/-- Concrete instantiation of `load_stack_fetch_failure_passthrough`:
a failing fetch drops the fixture row; a successful run passes the
upstream license classification through. -/
theorem load_stack_fetch_failure_passthrough_witness :
    processStackRow (fun _ _ => none) (fun _ => 0) "COBOL" cobolRowDotCBL
      = none ∧
    ∃ row ∈ [cobolRowDotCBL],
      cobolRecordDotCBL.license_type = row.license_type ∧
      cobolRecordDotCBL.licenses = row.detected_licenses :=
  ⟨load_stack_fetch_failure_passthrough.1 (fun _ _ => none) (fun _ => 0)
     "COBOL" cobolRowDotCBL rfl,
   load_stack_fetch_failure_passthrough.2 (fun _ _ => some tenLineContent)
     (fun _ => 5) "COBOL" [cobolRowDotCBL] cobolRecordDotCBL (by decide)⟩

/-! ### Claims C3, C4, C7 — publisher -/

theorem checkFilePaths_append (env : UploadEnv) (ps₁ rest : List String)
    (h : ∀ q ∈ ps₁, pathExists env q = true ∧ pyEndswith q ".jsonl" = true) :
    checkFilePaths env (ps₁ ++ rest) = checkFilePaths env rest := by
  induction ps₁ with
  | nil => rfl
  | cons a as ih =>
    have ha := h a (by simp)
    rw [List.cons_append]
    simp only [checkFilePaths]
    rw [if_pos ha.1, if_pos ha.2]
    exact ih fun q hq => h q (List.mem_cons_of_mem a hq)

theorem checkFilePaths_none (env : UploadEnv) (paths : List String)
    (h : ∀ q ∈ paths, pathExists env q = true ∧ pyEndswith q ".jsonl" = true) :
    checkFilePaths env paths = none := by
  have hap := checkFilePaths_append env paths [] h
  simpa using hap

/-- C3: when the preconditions hold, `upload_to_hf` pushes, as the new
destination contents, exactly the prior corpus `P` followed by the
row-wise concatenation of the input files in order — or that
concatenation alone when the destination load reports no existing
corpus. -/
theorem upload_to_hf_concatenation (env : UploadEnv)
    (file_paths : List String) (dataset_name : String)
    (hpre : checkFilePaths env file_paths = none)
    (htok : hasToken env = true) :
    (∀ P, env.loadExisting = LoadOutcome.success P →
       upload_to_hf env file_paths dataset_name =
         ([Effect.createRepo ("zorse/" ++ dataset_name),
           Effect.loadDataset ("zorse/" ++ dataset_name),
           Effect.loadFiles file_paths,
           Effect.pushToHub ("zorse/" ++ dataset_name)],
          Except.ok (P ++ file_paths.flatMap
            (fun p => (env.fileRows p).getD [])))) ∧
    (∀ code, env.loadExisting = LoadOutcome.hfHubHTTPError code →
       upload_to_hf env file_paths dataset_name =
         ([Effect.createRepo ("zorse/" ++ dataset_name),
           Effect.loadDataset ("zorse/" ++ dataset_name),
           Effect.loadFiles file_paths,
           Effect.pushToHub ("zorse/" ++ dataset_name)],
          Except.ok (file_paths.flatMap
            (fun p => (env.fileRows p).getD [])))) := by
  constructor
  · intro P hP
    simp [upload_to_hf, hpre, htok, hP]
  · intro code hcode
    simp [upload_to_hf, hpre, htok, hcode]

/-- Publisher fixture: an existing corpus `["p1"]` and one input file
with rows `["r1", "r2"]`. -/
def envC3 : UploadEnv :=
  { fileRows := fun p => if p = "a.jsonl" then some ["r1", "r2"] else none,
    hfToken := some "tok", loadExisting := LoadOutcome.success ["p1"] }

/-- Concrete instantiation of `upload_to_hf_concatenation`: prior rows
first, new rows appended. -/
theorem upload_to_hf_concatenation_witness :
    upload_to_hf envC3 ["a.jsonl"] "x" =
      ([Effect.createRepo ("zorse/" ++ "x"),
        Effect.loadDataset ("zorse/" ++ "x"),
        Effect.loadFiles ["a.jsonl"], Effect.pushToHub ("zorse/" ++ "x")],
       Except.ok (["p1"] ++ ["a.jsonl"].flatMap
         (fun p => (envC3.fileRows p).getD []))) :=
  (upload_to_hf_concatenation envC3 ["a.jsonl"] "x" (by decide)
    (by decide)).1 ["p1"] rfl

deriving instance DecidableEq for Except

/-- Publisher fixture whose destination load raises an
`HfHubHTTPError` with status 500 — a failure, but not not-found. -/
def envC4 : UploadEnv :=
  { fileRows := fun p => if p = "a.jsonl" then some ["r1"] else none,
    hfToken := some "tok", loadExisting := LoadOutcome.hfHubHTTPError 500 }

/-- Publisher fixture whose destination load raises an exception
outside the caught class. -/
def envC4b : UploadEnv :=
  { fileRows := fun p => if p = "a.jsonl" then some ["r1"] else none,
    hfToken := some "tok", loadExisting := LoadOutcome.otherFailure "boom" }

/-- C4 counterexample: a destination-load failure that is not a
not-found response — an `HfHubHTTPError` with status 500 — is not
propagated: the call succeeds and pushes the new batch alone, exactly
as in the "no existing corpus" branch. -/
theorem upload_load_failure_counterexample :
    envC4.loadExisting = LoadOutcome.hfHubHTTPError 500 ∧
    (500 : Nat) ≠ 404 ∧
    (upload_to_hf envC4 ["a.jsonl"] "x").2 = Except.ok ["r1"] := by decide

/-- C4 corrected: the publisher treats the whole caught exception
class — any `HfHubHTTPError`, whatever its status, not only not-found
— as "no existing corpus" and proceeds with the new data alone; a
failure outside that class is propagated unmodified, after a single
load attempt (no retry) and without any push. -/
theorem upload_load_failure_handling (env : UploadEnv)
    (file_paths : List String) (dataset_name : String)
    (hpre : checkFilePaths env file_paths = none)
    (htok : hasToken env = true) :
    (∀ code, env.loadExisting = LoadOutcome.hfHubHTTPError code →
       (upload_to_hf env file_paths dataset_name).2 =
         Except.ok (file_paths.flatMap
           (fun p => (env.fileRows p).getD []))) ∧
    (∀ msg, env.loadExisting = LoadOutcome.otherFailure msg →
       upload_to_hf env file_paths dataset_name =
         ([Effect.createRepo ("zorse/" ++ dataset_name),
           Effect.loadDataset ("zorse/" ++ dataset_name)],
          Except.error (UploadError.uncaught msg))) := by
  constructor
  · intro code hcode
    simp [upload_to_hf, hpre, htok, hcode]
  · intro msg hmsg
    simp [upload_to_hf, hpre, htok, hmsg]

/-- Concrete instantiation of `upload_load_failure_handling` at the
two fixtures. -/
theorem upload_load_failure_handling_witness :
    (upload_to_hf envC4 ["a.jsonl"] "x").2 =
      Except.ok (["a.jsonl"].flatMap
        (fun p => (envC4.fileRows p).getD [])) ∧
    upload_to_hf envC4b ["a.jsonl"] "x" =
      ([Effect.createRepo ("zorse/" ++ "x"),
        Effect.loadDataset ("zorse/" ++ "x")],
       Except.error (UploadError.uncaught "boom")) :=
  ⟨(upload_load_failure_handling envC4 ["a.jsonl"] "x" (by decide)
      (by decide)).1 500 rfl,
   (upload_load_failure_handling envC4b ["a.jsonl"] "x" (by decide)
      (by decide)).2 "boom" rfl⟩

/-- C7: `upload_to_hf` checks its preconditions before any side
effect, raising a typed error on the first violation: a non-existent
path raises the file-not-found error, a path without the exact
`.jsonl` suffix raises the extension error, an absent (or empty)
authentication token raises the token error — and in each case the
recorded effect trace is empty (no repo creation, load, or push). -/
theorem upload_precondition_errors :
    (∀ (env : UploadEnv) (ps₁ : List String) (p : String)
       (ps₂ : List String) (name : String),
       (∀ q ∈ ps₁, pathExists env q = true ∧ pyEndswith q ".jsonl" = true) →
       pathExists env p = false →
       upload_to_hf env (ps₁ ++ p :: ps₂) name =
         ([], Except.error (UploadError.fileNotFoundError p))) ∧
    (∀ (env : UploadEnv) (ps₁ : List String) (p : String)
       (ps₂ : List String) (name : String),
       (∀ q ∈ ps₁, pathExists env q = true ∧ pyEndswith q ".jsonl" = true) →
       pathExists env p = true → pyEndswith p ".jsonl" = false →
       upload_to_hf env (ps₁ ++ p :: ps₂) name =
         ([], Except.error UploadError.extensionValueError)) ∧
    (∀ (env : UploadEnv) (paths : List String) (name : String),
       (∀ q ∈ paths, pathExists env q = true ∧ pyEndswith q ".jsonl" = true) →
       hasToken env = false →
       upload_to_hf env paths name =
         ([], Except.error UploadError.tokenValueError)) := by
  refine ⟨?_, ?_, ?_⟩
  · intro env ps₁ p ps₂ name h hp
    have hc : checkFilePaths env (ps₁ ++ p :: ps₂) =
        some (UploadError.fileNotFoundError p) := by
      rw [checkFilePaths_append env ps₁ _ h]
      simp only [checkFilePaths]
      rw [if_neg (by simp [hp])]
    simp [upload_to_hf, hc]
  · intro env ps₁ p ps₂ name h hp hext
    have hc : checkFilePaths env (ps₁ ++ p :: ps₂) =
        some UploadError.extensionValueError := by
      rw [checkFilePaths_append env ps₁ _ h]
      simp only [checkFilePaths]
      rw [if_pos hp, if_neg (by simp [hext])]
    simp [upload_to_hf, hc]
  · intro env paths name h htok
    have hc : checkFilePaths env paths = none := checkFilePaths_none env paths h
    simp [upload_to_hf, hc, htok]

/-- Publisher fixture with an empty file system. -/
def envMissing : UploadEnv :=
  { fileRows := fun _ => none, hfToken := some "tok",
    loadExisting := LoadOutcome.hfHubHTTPError 404 }

/-- Publisher fixture holding only a `.txt` file. -/
def envTxt : UploadEnv :=
  { fileRows := fun p => if p = "a.txt" then some [] else none,
    hfToken := some "tok", loadExisting := LoadOutcome.hfHubHTTPError 404 }

/-- Publisher fixture with a valid input file but no token. -/
def envNoToken : UploadEnv :=
  { fileRows := fun p => if p = "a.jsonl" then some [] else none,
    hfToken := none, loadExisting := LoadOutcome.hfHubHTTPError 404 }

/-- Concrete instantiation of `upload_precondition_errors` at its
three fixtures. -/
theorem upload_precondition_errors_witness :
    upload_to_hf envMissing (([] : List String) ++ "missing.jsonl" :: []) "x" =
      ([], Except.error (UploadError.fileNotFoundError "missing.jsonl")) ∧
    upload_to_hf envTxt (([] : List String) ++ "a.txt" :: []) "x" =
      ([], Except.error UploadError.extensionValueError) ∧
    upload_to_hf envNoToken ["a.jsonl"] "x" =
      ([], Except.error UploadError.tokenValueError) :=
  ⟨upload_precondition_errors.1 envMissing [] "missing.jsonl" [] "x"
     (by simp) (by decide),
   upload_precondition_errors.2.1 envTxt [] "a.txt" [] "x"
     (by simp) (by decide) (by decide),
   upload_precondition_errors.2.2 envNoToken ["a.jsonl"] "x"
     (by decide) (by decide)⟩

/-! ### Claim C8 — aggregator -/

theorem hexDigit_ne_newline : ∀ m : Nat, m < 16 → hexDigit m ≠ '\n' := by
  decide

theorem newline_not_mem_hex4 (n : Nat) : ('\n' : Char) ∉ hex4 n := by
  intro hmem
  have h16 : ∀ m : Nat, m % 16 < 16 := fun m => Nat.mod_lt _ (by decide)
  simp only [hex4, List.mem_cons, List.not_mem_nil, or_false] at hmem
  rcases hmem with h | h | h | h <;>
    exact hexDigit_ne_newline _ (h16 _) h.symm

theorem newline_not_mem_jsonEscapeChar (c : Char) :
    ('\n' : Char) ∉ jsonEscapeChar c := by
  intro hmem
  simp only [jsonEscapeChar] at hmem
  split_ifs at hmem with h1 h2 h3 h4 h5 h6 h7 h8 h9
  · exact absurd hmem (by decide)
  · exact absurd hmem (by decide)
  · exact absurd hmem (by decide)
  · exact absurd hmem (by decide)
  · exact absurd hmem (by decide)
  · exact absurd hmem (by decide)
  · exact absurd hmem (by decide)
  · simp only [List.mem_cons] at hmem
    rcases hmem with h | h | h
    · exact absurd h (by decide)
    · exact absurd h (by decide)
    · exact newline_not_mem_hex4 _ h
  · simp only [List.mem_append, List.mem_cons] at hmem
    rcases hmem with (h | h | h) | (h | h | h)
    · exact absurd h (by decide)
    · exact absurd h (by decide)
    · exact newline_not_mem_hex4 _ h
    · exact absurd h (by decide)
    · exact absurd h (by decide)
    · exact newline_not_mem_hex4 _ h
  · simp only [List.mem_singleton] at hmem
    exact h5 hmem.symm

theorem mem_sepJoin {c : Char} {L : List (List Char)}
    (hc : c ∈ sepJoin L) : (∃ l ∈ L, c ∈ l) ∨ c = ',' ∨ c = ' ' := by
  induction L with
  | nil => simp [sepJoin] at hc
  | cons x rest ih =>
    cases rest with
    | nil => exact Or.inl ⟨x, by simp, by simpa [sepJoin] using hc⟩
    | cons y rest2 =>
      simp only [sepJoin, List.mem_append, List.mem_cons] at hc
      rcases hc with h | h | h | h
      · exact Or.inl ⟨x, by simp, h⟩
      · exact Or.inr (Or.inl h)
      · exact Or.inr (Or.inr h)
      · rcases ih h with ⟨l, hl, hcl⟩ | h | h
        · exact Or.inl ⟨l, by simp [hl], hcl⟩
        · exact Or.inr (Or.inl h)
        · exact Or.inr (Or.inr h)

theorem newline_not_mem_jsonStr (s : String) :
    ('\n' : Char) ∉ jsonStr s := by
  intro hmem
  simp only [jsonStr, List.mem_cons, List.mem_append] at hmem
  rcases hmem with h | h | h
  · exact absurd h (by decide)
  · obtain ⟨a, ha, hc⟩ := List.mem_flatMap.mp h
    exact newline_not_mem_jsonEscapeChar a hc
  · exact absurd h (by decide)

theorem newline_not_mem_natToCharsAux (fuel : Nat) :
    ∀ (n : Nat) (acc : List Char), ('\n' : Char) ∉ acc →
      ('\n' : Char) ∉ natToCharsAux fuel n acc := by
  induction fuel with
  | zero =>
    intro n acc hacc
    simpa [natToCharsAux] using hacc
  | succ f ih =>
    intro n acc hacc
    have hd : Char.ofNat (48 + n % 10) ≠ '\n' := by
      have h10 : n % 10 < 10 := Nat.mod_lt _ (by decide)
      have hk : ∀ k : Nat, k < 10 → Char.ofNat (48 + k) ≠ '\n' := by decide
      exact hk _ h10
    have hcons : ('\n' : Char) ∉ Char.ofNat (48 + n % 10) :: acc := by
      simp only [List.mem_cons]
      rintro (h | h)
      · exact hd h.symm
      · exact hacc h
    simp only [natToCharsAux]
    split_ifs
    · exact hcons
    · exact ih _ _ hcons

theorem newline_not_mem_natToChars (n : Nat) :
    ('\n' : Char) ∉ natToChars n :=
  newline_not_mem_natToCharsAux _ _ _ (by simp)

theorem newline_not_mem_renderJval (v : Jval) :
    ('\n' : Char) ∉ renderJval v := by
  cases v with
  | jstr s => exact newline_not_mem_jsonStr s
  | jnat n => exact newline_not_mem_natToChars n
  | jlist xs =>
    intro hmem
    simp only [renderJval, List.mem_cons, List.mem_append] at hmem
    rcases hmem with h | h | h
    · exact absurd h (by decide)
    · rcases mem_sepJoin h with ⟨l, hl, hcl⟩ | h | h
      · obtain ⟨x, hx, rfl⟩ := List.mem_map.mp hl
        exact newline_not_mem_jsonStr x hcl
      · exact absurd h (by decide)
      · exact absurd h (by decide)
    · exact absurd h (by decide)

theorem newline_not_mem_renderObj (fields : List (String × Jval)) :
    ('\n' : Char) ∉ (renderObj fields).data := by
  intro hmem
  simp only [renderObj, data_asString, List.mem_cons, List.mem_append]
    at hmem
  rcases hmem with h | h | h
  · exact absurd h (by decide)
  · rcases mem_sepJoin h with ⟨l, hl, hcl⟩ | h | h
    · obtain ⟨kv, hkv, rfl⟩ := List.mem_map.mp hl
      simp only [List.mem_append, List.mem_cons] at hcl
      rcases hcl with h | h | h | h
      · exact newline_not_mem_jsonStr _ h
      · exact absurd h (by decide)
      · exact absurd h (by decide)
      · exact newline_not_mem_renderJval _ h
    · exact absurd h (by decide)
    · exact absurd h (by decide)
  · exact absurd h (by decide)

theorem foldl_append_eq_flatMap {α β : Type} (f : α → List β)
    (l : List α) (acc : List β) :
    l.foldl (fun acc x => acc ++ f x) acc = acc ++ l.flatMap f := by
  induction l generalizing acc with
  | nil => simp
  | cons a as ih =>
    simp [List.foldl_cons, ih, List.append_assoc]

/-- Admitted-record sequence of one aggregator run, as the
specification describes it: blob-store records first — languages in
the given order (defaulted as in the code), adapter-yield order within
each — then the bulk-query records when enabled. -/
def aggregated (fetch : String → String → Option String)
    (tok : String → Nat) (decode : String → Option String)
    (stackData : String → List StackRow) (bqData : List BQRow)
    (languages : Option (List String)) (include_bigquery : Bool) :
    List UnifiedRecord :=
  (languages.getD ["COBOL", "REXX", "RPGLE"]).flatMap
    (fun language => load_stack fetch tok language (stackData language)) ++
  (if include_bigquery then load_bigquery decode tok bqData else [])

/-- Unified Record field names, in serialization order. -/
def unifiedRecordFieldNames : List String :=
  ["content", "repo_name", "file_path", "language", "extension",
   "license_type", "licenses", "host_url", "source", "num_tokens",
   "revision_id", "commit_date", "branch"]

/-- C8: one run of `build_dataset` writes exactly one JSON line per
admitted record and nothing else: the written lines are the
serializations of the admitted sequence in order — all blob-store
records first (given language order, adapter-yield order within each)
then bulk-query records — so N admitted records give exactly N lines
and zero admitted records give a (still created) file with zero lines;
each line renders a JSON object carrying exactly the Unified Record
field names and contains no raw newline character. -/
theorem build_dataset_spec (fetch : String → String → Option String)
    (tok : String → Nat) (decode : String → Option String)
    (stackData : String → List StackRow) (bqData : List BQRow)
    (languages : Option (List String)) (include_bigquery : Bool) :
    build_dataset fetch tok decode stackData bqData languages
        include_bigquery =
      (aggregated fetch tok decode stackData bqData languages
        include_bigquery).map recordToJson ∧
    (build_dataset fetch tok decode stackData bqData languages
        include_bigquery).length =
      (aggregated fetch tok decode stackData bqData languages
        include_bigquery).length ∧
    (∀ line ∈ build_dataset fetch tok decode stackData bqData languages
        include_bigquery,
      (∃ r ∈ aggregated fetch tok decode stackData bqData languages
          include_bigquery,
        line = renderObj (recordFields r) ∧
        (recordFields r).map Prod.fst = unifiedRecordFieldNames) ∧
      ('\n' : Char) ∉ line.data) ∧
    (aggregated fetch tok decode stackData bqData languages
        include_bigquery = [] →
      build_dataset fetch tok decode stackData bqData languages
        include_bigquery = []) := by
  have hb : build_dataset fetch tok decode stackData bqData languages
      include_bigquery =
      (aggregated fetch tok decode stackData bqData languages
        include_bigquery).map recordToJson := by
    simp only [build_dataset, aggregated]
    rw [foldl_append_eq_flatMap]
    cases include_bigquery <;> simp
  refine ⟨hb, by rw [hb]; simp, ?_, fun hz => by rw [hb, hz]; rfl⟩
  intro line hline
  rw [hb] at hline
  obtain ⟨r, hr, rfl⟩ := List.mem_map.mp hline
  exact ⟨⟨r, hr, rfl, rfl⟩, newline_not_mem_renderObj (recordFields r)⟩

/-- Concrete instantiation of `build_dataset_spec`: the serialized
fixture line contains no raw newline, and a run with zero admitted
records writes zero lines. -/
theorem build_dataset_spec_witness :
    ('\n' : Char) ∉ (recordToJson cobolRecordDotCBL).data ∧
    build_dataset (fun _ _ => none) (fun _ => 0) (fun _ => none)
      (fun _ => []) [] (some []) false = [] := by
  constructor
  · exact ((build_dataset_spec (fun _ _ => some tenLineContent)
      (fun _ => 5) (fun _ => none) (fun _ => [cobolRowDotCBL]) []
      (some ["COBOL"]) false).2.2.1 (recordToJson cobolRecordDotCBL)
      (by decide)).2
  · exact (build_dataset_spec (fun _ _ => none) (fun _ => 0)
      (fun _ => none) (fun _ => []) [] (some []) false).2.2.2 (by decide)

end Zorse
